import Mathlib

/-!
Verification of the AppFlowy Studios roadmap tools
(`src/tools/roadmap-enhanced.py`, `src/tools/roadmap-modern.py`).

The Python sources are shallowly embedded below.  Python strings are
modelled as Lean `String` (or `List Char` where character-level length
accounting matters); Python `dict`s keyed by task id are modelled as
association lists in insertion order; `None`-able values are `Option`s.
Python's `list.sort(key=...)` is a stable sort; it is embedded as
`List.insertionSort`, which Mathlib also implements as a stable sort, and
any two stable sorts by the same key agree, so the two functions coincide.
Character classification (`str.split()` whitespace, `str.upper()`,
`str.lower()`, `str.isdigit()`) is modelled with Lean's ASCII
`Char.isWhitespace` / `Char.toUpper` / `Char.toLower` / `Char.isDigit`;
the repository's data is ASCII and no claim depends on the non-ASCII
corners of the Python versions.
-/

namespace Roadmap

/-! ## Text wrapper

`EnhancedRoadmapTUI._wrap_text` (roadmap-enhanced.py:309-329) and
`ModernRoadmapViewer.format_text` (roadmap-modern.py:223-243) have
identical bodies; both are embedded once as `wrapWords` / `wrapText`.
Text is `List Char` so that line lengths are plain list lengths.
-/

/-- Python `' '.join(words)`: words joined by single spaces. -/
def joinSp : List (List Char) → List Char
  | [] => []
  | [w] => w
  | w :: ws => w ++ ' ' :: joinSp ws

/-- Helper for `splitWs`: accumulate the current word (reversed) while
scanning.  Mirrors CPython's `str.split()` with no separator argument:
runs of whitespace separate words and empty pieces are dropped. -/
def splitWsAux : List Char → List Char → List (List Char)
  | [], acc => if acc = [] then [] else [acc.reverse]
  | c :: cs, acc =>
      if c.isWhitespace then
        if acc = [] then splitWsAux cs [] else acc.reverse :: splitWsAux cs []
      else
        splitWsAux cs (c :: acc)

/-- Python `text.split()` (no separator): the whitespace-separated words. -/
def splitWs (s : List Char) : List (List Char) := splitWsAux s []

/-- One iteration of the `for word in words` loop of `_wrap_text` /
`format_text`.  State: (completed lines, current line's words, current
length counter). -/
def wrapStep (width : Nat) :
    List (List Char) × List (List Char) × Nat → List Char →
    List (List Char) × List (List Char) × Nat
  | (lines, currentLine, currentLength), word =>
      if currentLength + word.length + 1 ≤ width then
        (lines, currentLine ++ [word], currentLength + word.length + 1)
      else if currentLine = [] then
        (lines, [word], word.length)
      else
        (lines ++ [joinSp currentLine], [word], word.length)

/-- The wrapper's loop over an explicit word list, then the final flush
and the `lines if lines else ['']` fallback. -/
def wrapWords (width : Nat) (ws : List (List Char)) : List (List Char) :=
  let st := ws.foldl (wrapStep width) ([], [], 0)
  let lines := if st.2.1 = [] then st.1 else st.1 ++ [joinSp st.2.1]
  if lines = [] then [[]] else lines

/-- `_wrap_text(text, width)` / `format_text(text, width)`: split into
words, run the greedy loop. -/
def wrapText (text : List Char) (width : Nat) : List (List Char) :=
  wrapWords width (splitWs text)

/-- A word as produced by `str.split()`: non-empty and whitespace-free. -/
def Wordish (w : List Char) : Prop := w ≠ [] ∧ ∀ c ∈ w, ¬ c.isWhitespace

/-- A produced line is good: within the width, or it is one of the input
words, longer than the width (and then it sits alone on its line). -/
def WrapGood (width : Nat) (processed : List (List Char)) (line : List Char) : Prop :=
  line.length ≤ width ∨ (line ∈ processed ∧ width < line.length)

/-- Loop invariant of the wrapper's fold.  `processed` is the list of words
consumed so far; the state is (finished lines, current line's words, length
counter).  The counter over-approximates the joined current line's length,
the current line fits the width unless it is a single overlong word, and
every finished line is `WrapGood` and splits back into its words. -/
def WrapInv (width : Nat) (processed : List (List Char))
    (st : List (List Char) × List (List Char) × Nat) : Prop :=
  ((st.1.map splitWs).flatten ++ st.2.1 = processed) ∧
  (∀ w ∈ processed, Wordish w) ∧
  (st.2.1 = [] → st.2.2 = 0 ∧ st.1 = []) ∧
  (st.2.1 ≠ [] → (joinSp st.2.1).length ≤ st.2.2 ∧
      (st.2.2 ≤ width ∨ ∃ w, st.2.1 = [w] ∧ st.2.2 = w.length ∧ width < w.length)) ∧
  (∀ line ∈ st.1, WrapGood width processed line)

/-! ## Task record (panel mode, `EnhancedTask`, roadmap-enhanced.py:21-55)

`EnhancedTask` extends the base `Task` of `roadmaptool/roadmap.py`, which is
not part of this repository's sources.  Its constructor signature and
defaults are visible in `EnhancedTask.__init__` (status `'todo'`, priority
`'medium'`, project `'workspace'`, description/milestone `''`); the
`created`/`updated` timestamp fields are plain strings here.  All fields are
concrete after construction, so the record has no `Option` fields. -/
structure ETask where
  id : String
  title : String
  status : String
  priority : String
  project : String
  description : String
  milestone : String
  created : String
  updated : String
  details : String
  links : List (String × String)
  subtasks : List String
deriving Repr, DecidableEq

/-- A task value used as the (never actually consulted) default of `List.getD`
when indexing the filtered list at a position proven in range. -/
def dummyTask : ETask :=
  ⟨"", "", "", "", "", "", "", "", "", "", [], []⟩

/-! ## Filter/sort pipeline (`EnhancedRoadmapTUI.get_filtered_tasks`,
roadmap-enhanced.py:90-110) -/

/-- `priority_order = {'critical': 0, 'high': 1, 'medium': 2, 'low': 3}` and
`priority_order.get(p, 4)`: unknown priorities rank last. -/
def priorityRank (p : String) : Nat :=
  if p = "critical" then 0
  else if p = "high" then 1
  else if p = "medium" then 2
  else if p = "low" then 3
  else 4

/-- The sort key `(priority_order.get(t.priority, 4), t.milestone, t.id)`.
Python compares tuples and strings lexicographically; strings are compared
code point by code point, which is the lexicographic order on `List Char`. -/
def taskKey (t : ETask) : Nat ×ₗ List Char ×ₗ List Char :=
  toLex (priorityRank t.priority, toLex (t.milestone.toList, t.id.toList))

/-- Non-strict comparison of tasks by `taskKey` (the order `list.sort`
establishes). -/
def taskLE (s t : ETask) : Prop := taskKey s ≤ taskKey t

instance : DecidableRel taskLE :=
  fun s t => inferInstanceAs (Decidable (taskKey s ≤ taskKey t))

instance : IsTotal ETask taskLE := ⟨fun s t => le_total (taskKey s) (taskKey t)⟩

instance : IsTrans ETask taskLE := ⟨fun _ _ _ hab hbc => le_trans hab hbc⟩

/-- One `if self.filter_x:` stage of `get_filtered_tasks`.  Python truthiness:
the filter is applied only when the attribute is neither `None` nor the empty
string. -/
def applyFilter (f : Option String) (field : ETask → String) (ts : List ETask) :
    List ETask :=
  match f with
  | none => ts
  | some s => if s = "" then ts else ts.filter (fun t => field t == s)

/-- `get_filtered_tasks`: the three truthiness-guarded exact-match filters,
then `tasks.sort(key=...)`.  Python's `list.sort` is a stable sort by the
key; `List.insertionSort` is also stable, and two stable sorts by the same
key compute the same list. -/
def getFilteredTasks (tasks : List ETask) (fs fp fm : Option String) : List ETask :=
  let t1 := applyFilter fs (fun t => t.status) tasks
  let t2 := applyFilter fp (fun t => t.priority) t1
  let t3 := applyFilter fm (fun t => t.milestone) t2
  List.insertionSort taskLE t3

/-- The spec's reading of a filter: unset matches everything, set means
exact match. -/
def matchesFilter : Option String → String → Bool
  | none, _ => true
  | some s, v => v == s

/-! ## Status cycling (space key, roadmap-enhanced.py:442-450) -/

/-- `status_cycle = ['todo', 'in_progress', 'done', 'todo']`. -/
def statusCycle : List String := ["todo", "in_progress", "done", "todo"]

/-- `status_cycle.index(s) if s in status_cycle else 0`, then
`status_cycle[current_idx + 1]`.  `list.index` returns the first occurrence,
so the index is at most 2 and the access never goes out of range (the `getD`
default is dead). -/
def nextStatus (s : String) : String :=
  let currentIdx := if s ∈ statusCycle then statusCycle.indexOf s else 0
  statusCycle.getD (currentIdx + 1) ""

/-! ## Task store serialization (`EnhancedRoadmapTool.save_tasks`,
roadmap-enhanced.py:74-78): `json.dump(data, f, indent=2)` of the mapping
`{tid: task.to_dict()}`.

The base `Task.to_dict` lives in the missing `roadmaptool/roadmap.py`.
Modelled from the spec: the serialized object carries the §3 fields
(id, title, status, priority, project, milestone, description, created,
updated) in that order, then the `EnhancedTask.to_dict` additions
(details, links, subtasks, roadmap-enhanced.py:35-40).  String values are
emitted verbatim between quotes (repository data needs no JSON escaping;
no claim depends on escaping). -/

/-- A JSON string literal (no escaping modelled). -/
def jsonStr (s : String) : String := "\"" ++ s ++ "\""

/-- One `{name, url}` link object at depth 3 of the indent-2 layout. -/
def dumpLinkObj (l : String × String) : String :=
  "      \x7b\n        \"name\": " ++ jsonStr l.1 ++ ",\n        \"url\": " ++
    jsonStr l.2 ++ "\n      \x7d"

/-- The `links` array at depth 2 (`[]` when empty, as `json.dump` prints
empty containers compactly). -/
def dumpLinks (ls : List (String × String)) : String :=
  if ls = [] then "[]"
  else "[\n" ++ String.intercalate ",\n" (ls.map dumpLinkObj) ++ "\n    ]"

/-- The `subtasks` array at depth 2. -/
def dumpSubtasks (xs : List String) : String :=
  if xs = [] then "[]"
  else "[\n" ++ String.intercalate ",\n" (xs.map (fun s => "      " ++ jsonStr s)) ++
    "\n    ]"

/-- One task object at depth 1 of the indent-2 layout. -/
def dumpTaskObj (t : ETask) : String :=
  "\x7b\n    \"id\": " ++ jsonStr t.id ++
    ",\n    \"title\": " ++ jsonStr t.title ++
    ",\n    \"status\": " ++ jsonStr t.status ++
    ",\n    \"priority\": " ++ jsonStr t.priority ++
    ",\n    \"project\": " ++ jsonStr t.project ++
    ",\n    \"milestone\": " ++ jsonStr t.milestone ++
    ",\n    \"description\": " ++ jsonStr t.description ++
    ",\n    \"created\": " ++ jsonStr t.created ++
    ",\n    \"updated\": " ++ jsonStr t.updated ++
    ",\n    \"details\": " ++ jsonStr t.details ++
    ",\n    \"links\": " ++ dumpLinks t.links ++
    ",\n    \"subtasks\": " ++ dumpSubtasks t.subtasks ++ "\n  \x7d"

/-- `save_tasks`: `json.dump({tid: task.to_dict() for ...}, f, indent=2)`.
An empty mapping serializes to the two characters `\x7b\x7d`. -/
def dumpTasks (tasks : List (String × ETask)) : String :=
  if tasks = [] then "\x7b\x7d"
  else "\x7b\n" ++
    String.intercalate ",\n"
      (tasks.map (fun kv => "  " ++ jsonStr kv.1 ++ ": " ++ dumpTaskObj kv.2)) ++
    "\n\x7d"

/-! ## Task store deserialization

Raw JSON task objects (as the modern viewer consumes directly and the
enhanced tool feeds to `EnhancedTask.from_dict`) are modelled as records of
optional fields; `dict.get(k, d)` is `Option.getD`.  `from_dict` requires
`id` (it does `data.pop('id')`) and the base constructor requires `title`,
so those two are non-optional here. -/
structure RawTask where
  id : String
  title : String
  status : Option String
  priority : Option String
  project : Option String
  description : Option String
  milestone : Option String
  created : Option String
  updated : Option String
  details : Option String
  links : Option (List (String × String))
  subtasks : Option (List String)
deriving Repr, DecidableEq

/-- A raw task with everything optional absent, for building examples. -/
def rawBase (id title : String) : RawTask :=
  ⟨id, title, none, none, none, none, none, none, none, none, none, none⟩

/-- `EnhancedTask.from_dict` (roadmap-enhanced.py:42-55) composed with the
constructor defaults of `EnhancedTask.__init__`/`Task.__init__`
(status `'todo'`, priority `'medium'`, project `'workspace'`, description and
milestone `''`, details `''`, links `[]`, subtasks `[]`).  Modelled from the
spec: the base `Task` constructor (missing `roadmaptool/roadmap.py`) keeps
`created`/`updated` as given; §3 says `created` is set at construction when
absent — the timestamp value itself is irrelevant to every claim, so an
absent timestamp is modelled as the empty string. -/
def taskFromDict (rt : RawTask) : ETask :=
  { id := rt.id
    title := rt.title
    status := rt.status.getD "todo"
    priority := rt.priority.getD "medium"
    project := rt.project.getD "workspace"
    description := rt.description.getD ""
    milestone := rt.milestone.getD ""
    created := rt.created.getD ""
    updated := rt.updated.getD ""
    details := rt.details.getD ""
    links := rt.links.getD []
    subtasks := rt.subtasks.getD [] }

/-- `EnhancedRoadmapTool.load_tasks` (roadmap-enhanced.py:66-72).  The file
argument is `none` when `tasks_file.exists()` is false, otherwise the parsed
JSON mapping in file order.  A missing file yields the empty mapping. -/
def loadTasks (file : Option (List (String × RawTask))) : List (String × ETask) :=
  match file with
  | none => []
  | some data => data.map (fun kv => (kv.1, taskFromDict kv.2))

/-- `ModernRoadmapViewer.load_tasks` (roadmap-modern.py:126-131): returns the
raw parsed mapping, or the empty mapping when the file does not exist. -/
def loadTasksModern (file : Option (List (String × RawTask))) :
    List (String × RawTask) :=
  match file with
  | none => []
  | some data => data

/-! ## Panel-mode state and the space-key handler
(`EnhancedRoadmapTUI.run`, roadmap-enhanced.py:442-450) -/

structure PanelState where
  tasks : List (String × ETask)
  selected : Nat
  fs : Option String
  fp : Option String
  fm : Option String
  file : Option String
deriving Repr, DecidableEq

/-- `self.get_filtered_tasks()`: the pipeline over
`list(self.tool.tasks.values())`. -/
def filteredOf (st : PanelState) : List ETask :=
  getFilteredTasks (st.tasks.map Prod.snd) st.fs st.fp st.fm

/-- The space-key branch of the main loop: when the selection is in range,
cycle the selected task's status, stamp `updated`, and `save_tasks()`
(the whole mapping is rewritten to the file) — all before `getch` blocks for
the next key.  The Python code mutates the selected task object, which is
the very object stored in the id-keyed dict; with the data model's unique
ids this is the by-id update below. -/
def pressSpace (now : String) (st : PanelState) : PanelState :=
  let ftasks := filteredOf st
  if st.selected < ftasks.length then
    let t := ftasks.getD st.selected dummyTask
    let tasks2 := st.tasks.map (fun kv =>
      if kv.2.id = t.id then
        (kv.1, { kv.2 with status := nextStatus t.status, updated := now })
      else kv)
    { st with tasks := tasks2, file := some (dumpTasks tasks2) }
  else st

/-- Status of the currently selected task. -/
def selStatus (st : PanelState) : String :=
  ((filteredOf st).getD st.selected dummyTask).status

/-- `updated` timestamp of the currently selected task. -/
def selUpdated (st : PanelState) : String :=
  ((filteredOf st).getD st.selected dummyTask).updated

/-! ## Report mode: milestone grouping
(`ModernRoadmapViewer.list_tasks_by_milestone`, roadmap-modern.py:309-349) -/

/-- `task.get('milestone', 'Unassigned')`: the default applies only when the
key is absent; an empty-string milestone stays `""`. -/
def milestoneOf (t : RawTask) : String := t.milestone.getD "Unassigned"

/-- Within-bucket sort key
`(priority_order.get(t[1].get('priority', 'low'), 4), t[0])`. -/
def bucketKey (x : String × RawTask) : Nat ×ₗ List Char :=
  toLex (priorityRank (x.2.priority.getD "low"), x.1.toList)

/-- Non-strict within-bucket comparison. -/
def bucketLE (a b : String × RawTask) : Prop := bucketKey a ≤ bucketKey b

instance : DecidableRel bucketLE :=
  fun a b => inferInstanceAs (Decidable (bucketKey a ≤ bucketKey b))

instance : IsTotal (String × RawTask) bucketLE :=
  ⟨fun a b => le_total (bucketKey a) (bucketKey b)⟩

instance : IsTrans (String × RawTask) bucketLE :=
  ⟨fun _ _ _ hab hbc => le_trans hab hbc⟩

/-- Python string comparison (`sorted(keys)`) as the lexicographic order on
the code-point lists. -/
def strLE (a b : String) : Prop := a.toList ≤ b.toList

instance : DecidableRel strLE :=
  fun a b => inferInstanceAs (Decidable (a.toList ≤ b.toList))

instance : IsTotal String strLE := ⟨fun a b => le_total a.toList b.toList⟩

instance : IsTrans String strLE := ⟨fun _ _ _ hab hbc => le_trans hab hbc⟩

/-- `milestones[milestone].append(...)` with dict-of-lists semantics: append
to the existing bucket, or add a new key at the end. -/
def addToGroups :
    List (String × List (String × RawTask)) → String → String × RawTask →
    List (String × List (String × RawTask))
  | [], key, item => [(key, [item])]
  | (k, bucket) :: rest, key, item =>
      if k = key then (k, bucket ++ [item]) :: rest
      else (k, bucket) :: addToGroups rest key item

/-- The grouping loop `for task_id, task in self.tasks.items(): ...`. -/
def groupTasks (tasks : List (String × RawTask)) :
    List (String × List (String × RawTask)) :=
  tasks.foldl (fun gs x => addToGroups gs (milestoneOf x.2) x) []

/-- `milestones[milestone]` lookup (keys are unique by construction). -/
def lookupGroup : List (String × List (String × RawTask)) → String →
    List (String × RawTask)
  | [], _ => []
  | (k, b) :: rest, key => if k = key then b else lookupGroup rest key

/-- `list_tasks_by_milestone`: group, sort the milestone keys
(`sorted(milestones.keys())`, Python string sort), and sort each bucket by
`(priority rank, task id)` (`sorted(milestones[milestone], key=...)`, a
stable sort, embedded as insertion sort as above). -/
def listTasksByMilestone (tasks : List (String × RawTask)) :
    List (String × List (String × RawTask)) :=
  let groups := groupTasks tasks
  let keys := List.insertionSort strLE (groups.map Prod.fst)
  keys.map (fun k => (k, List.insertionSort bucketLE (lookupGroup groups k)))

/-- The numbered `task_map` built during the interactive listing: the tasks
of the milestone-sorted buckets, flattened in display order and numbered
from 1. -/
def taskMap (tasks : List (String × RawTask)) : List (String × String) :=
  (((listTasksByMilestone tasks).map Prod.snd).flatten.enum).map
    (fun p => (toString (p.1 + 1), p.2.1))

/-! ## Report mode: direct task lookup and menu handling -/

/-- `str.upper()`, modelled with the ASCII `Char.toUpper`.  Python's
`str.upper()` differs on non-ASCII input (`é` becomes `É`, `ß` becomes
`SS`), where this model is the identity; the theorems that feed user input
through `pyUpper` therefore carry an `AsciiStr` hypothesis, on which the
model agrees with Python exactly. -/
def pyUpper (s : String) : String := String.mk (s.toList.map Char.toUpper)

/-- Strings on which `pyUpper` models `str.upper()` exactly: ASCII only. -/
def AsciiStr (s : String) : Prop := ∀ c ∈ s.toList, c.toNat < 128

instance (s : String) : Decidable (AsciiStr s) :=
  inferInstanceAs (Decidable (∀ c ∈ s.toList, c.toNat < 128))

/-- `str.lower()`, modelled for ASCII with `Char.toLower`. -/
def pyLower (s : String) : String := String.mk (s.toList.map Char.toLower)

/-- Association lookup in the raw task mapping (`task_id in self.tasks` /
`self.tasks[task_id]`). -/
def lookupRaw : List (String × RawTask) → String → Option RawTask
  | [], _ => none
  | (k, t) :: rest, key => if k = key then some t else lookupRaw rest key

/-- Observable output events of the report-mode menu loop, at the
granularity the error-handling claims need. -/
inductive Ev where
  | header
  | menuBlock
  | listing
  | errorMsg (s : String)
  | taskCard (id : String)
  | detailView (id : String)
  | info (s : String)
  | promptEnter
  | goodbye
deriving Repr, DecidableEq

/-- Is the event an inline error report? -/
def isErrorEv : Ev → Bool
  | Ev.errorMsg _ => true
  | _ => false

/-- `show_task_detail` (roadmap-modern.py:403-458) at event granularity: an
unknown id prints `❌ Task .. not found` and returns; a known id prints the
detail view (card, enrichment, subtasks) and waits for Enter. -/
def showTaskDetailEvents (tasks : List (String × RawTask)) (tid : String) : List Ev :=
  match lookupRaw tasks tid with
  | none => [Ev.errorMsg ("Task " ++ tid ++ " not found")]
  | some _ => [Ev.detailView tid, Ev.promptEnter]

/-- Characters for which Python's `str.isdigit()` is true, restricted to
the fragment modelled here: the ASCII decimal digits plus the superscript
digits `¹ ² ³` (U+00B9, U+00B2, U+00B3), which satisfy `isdigit()` but are
not decimal digits, so `int()` raises `ValueError` on them.  (Python also
accepts further Unicode digit characters; the `ModelledStr` hypotheses of
the theorems confine inputs to this fragment, on which the model is
exact.) -/
def pyDigitChar (c : Char) : Bool :=
  c.isDigit || c = '¹' || c = '²' || c = '³'

/-- `str.isdigit()` on the modelled character fragment. -/
def pyIsDigit (s : String) : Bool := s ≠ "" && s.toList.all pyDigitChar

/-- The numeric value of an ASCII decimal digit string. -/
def parseNat (s : String) : Nat :=
  s.toList.foldl (fun n c => 10 * n + (c.toNat - 48)) 0

/-- `int(s)`: succeeds exactly on non-empty ASCII decimal-digit strings,
`none` meaning a raised `ValueError`.  Within the modelled fragment this is
exact: a string whose characters all satisfy `isdigit()` either is all
ASCII digits (then `int` parses it) or contains a superscript digit (then
`int` raises). -/
def pyIntParse (s : String) : Option Nat :=
  if s ≠ "" && s.toList.all Char.isDigit then some (parseNat s) else none

/-- The character fragment on which `pyDigitChar`/`pyIntParse` model
`str.isdigit()`/`int()` exactly: ASCII plus the three superscript
digits. -/
def ModelledChar (c : Char) : Prop :=
  c.toNat < 128 ∨ c = '¹' ∨ c = '²' ∨ c = '³'

/-- Strings drawn from the modelled character fragment. -/
def ModelledStr (s : String) : Prop := ∀ c ∈ s.toList, ModelledChar c

instance (c : Char) : Decidable (ModelledChar c) :=
  inferInstanceAs (Decidable (c.toNat < 128 ∨ c = '¹' ∨ c = '²' ∨ c = '³'))

instance (s : String) : Decidable (ModelledStr s) :=
  inferInstanceAs (Decidable (∀ c ∈ s.toList, ModelledChar c))

deriving instance DecidableEq for Except

/-- `statuses = ['todo', 'in_progress', 'done', 'blocked']`
(roadmap-modern.py:582). -/
def statusChoices : List String := ["todo", "in_progress", "done", "blocked"]

/-- `priorities = ['critical', 'high', 'medium', 'low']`
(roadmap-modern.py:613). -/
def priorityChoices : List String := ["critical", "high", "medium", "low"]

/-- `task.get('status') == selected`: an absent status never matches. -/
def rawStatusIs (sel : String) (kv : String × RawTask) : Bool :=
  match kv.2.status with
  | some s => s == sel
  | none => false

/-- `task.get('priority') == selected`. -/
def rawPriorityIs (sel : String) (kv : String × RawTask) : Bool :=
  match kv.2.priority with
  | some s => s == sel
  | none => false

/-- `filter_by_status` (roadmap-modern.py:575-604).  The header and the
numbered status menu always print; then the guard
`choice.isdigit() and 1 <= int(choice) <= len(statuses)` runs.  `int` is
evaluated only after `isdigit` passes; when the digits are not ASCII
decimal digits (for example `²`) it raises `ValueError`, which nothing in
`interactive_menu` or `main` catches — modelled as `Except.error` (the
events already printed before the raise are elided in that case).  A valid
in-range choice prints the filtered cards and an Enter prompt; any other
non-raising choice falls off the end of the function with no message at
all. -/
def filterByStatus (tasks : List (String × RawTask)) (choice : String) :
    Except String (List Ev) :=
  if pyIsDigit choice then
    match pyIntParse choice with
    | none =>
        Except.error ("ValueError: invalid literal for int() with base 10: " ++ choice)
    | some n =>
        if 1 ≤ n ∧ n ≤ statusChoices.length then
          let selected := statusChoices.getD (n - 1) ""
          let filtered := tasks.filter (rawStatusIs selected)
          Except.ok ([Ev.header, Ev.menuBlock] ++
            [Ev.info ("Tasks with status: " ++ selected)] ++
            filtered.map (fun kv => Ev.taskCard kv.1) ++
            (if filtered = [] then [Ev.info "No tasks found with this status"] else []) ++
            [Ev.promptEnter])
        else Except.ok [Ev.header, Ev.menuBlock]
  else Except.ok [Ev.header, Ev.menuBlock]

/-- `filter_by_priority` (roadmap-modern.py:606-634), same shape, including
the same uncaught `ValueError` path. -/
def filterByPriority (tasks : List (String × RawTask)) (choice : String) :
    Except String (List Ev) :=
  if pyIsDigit choice then
    match pyIntParse choice with
    | none =>
        Except.error ("ValueError: invalid literal for int() with base 10: " ++ choice)
    | some n =>
        if 1 ≤ n ∧ n ≤ priorityChoices.length then
          let selected := priorityChoices.getD (n - 1) ""
          let filtered := tasks.filter (rawPriorityIs selected)
          Except.ok ([Ev.header, Ev.menuBlock] ++
            [Ev.info ("Tasks with priority: " ++ selected)] ++
            filtered.map (fun kv => Ev.taskCard kv.1) ++
            (if filtered = [] then [Ev.info "No tasks found with this priority"] else []) ++
            [Ev.promptEnter])
        else Except.ok [Ev.header, Ev.menuBlock]
  else Except.ok [Ev.header, Ev.menuBlock]

/-- One iteration of `interactive_menu` (roadmap-modern.py:516-573) after
the menu has printed: dispatch on the chosen option with its follow-up input
`sub`, returning the emitted events and whether the loop continues, or an
`Except.error` for an exception that escapes the loop and kills the
program.  Option 1 prints the numbered listing and resolves `sub` against
`task_map` (roadmap-modern.py:551-555); option 2 uppercases the typed id
and shows the detail view; options 3/4 delegate to the filter dialogs
(propagating their uncaught `ValueError`); `q` quits; anything else falls
through to the next iteration. -/
def menuStep (tasks : List (String × RawTask)) (choice sub : String) :
    Except String (List Ev × Bool) :=
  if choice = "1" then
    Except.ok ([Ev.header, Ev.listing] ++
      (match (taskMap tasks).lookup sub with
       | some tid => showTaskDetailEvents tasks tid
       | none =>
         if sub = "" then []
         else [Ev.errorMsg "Invalid selection", Ev.promptEnter]), true)
  else if choice = "2" then
    Except.ok (showTaskDetailEvents tasks (pyUpper sub) ++ [Ev.promptEnter], true)
  else if choice = "3" then
    match filterByStatus tasks sub with
    | Except.error e => Except.error e
    | Except.ok evs => Except.ok (evs, true)
  else if choice = "4" then
    match filterByPriority tasks sub with
    | Except.error e => Except.error e
    | Except.ok evs => Except.ok (evs, true)
  else if choice = "q" then Except.ok ([Ev.goodbye], false)
  else Except.ok ([], true)

/-! ## PRD enrichment (`ModernRoadmapViewer.load_prd_content`,
roadmap-modern.py:351-401, and the link loop of `show_task_detail`,
roadmap-modern.py:417-428) -/

/-- Result of trying to read a file: absent, unreadable (the caught
exception's text), or its content. -/
inductive FileRes where
  | missing
  | unreadable (msg : String)
  | content (text : String)

/-- Relative-URL resolution (roadmap-modern.py:354-357):
`workspace_root.parent / url[3:]` when the url starts with `../`, else
`workspace_root.parent / url`; path join modelled textually. -/
def resolvePrd (wsParent url : String) : String :=
  match url.toList with
  | '.' :: '.' :: '/' :: rest => wsParent ++ "/" ++ String.mk rest
  | _ => wsParent ++ "/" ++ url

/-- Is `needle` a leading segment of `hay`? -/
def beginsWith : List Char → List Char → Bool
  | [], _ => true
  | _ :: _, [] => false
  | a :: as, b :: bs => a == b && beginsWith as bs

/-- Is `needle` a contiguous segment of `hay` (Python `in`)? -/
def containsSub (needle : List Char) : List Char → Bool
  | [] => beginsWith needle []
  | c :: rest => beginsWith needle (c :: rest) || containsSub needle rest

/-- Case-insensitive substring test (`re.search(..., re.IGNORECASE)` for a
pattern without metacharacters). -/
def containsCI (hay sub : String) : Bool :=
  containsSub (pyLower sub).toList (pyLower hay).toList

/-- `re.search(rf'\[task-id:\s*{task_id}\]', line, re.IGNORECASE)`: the
`\s*` is realised as zero or one space (the repository's documents use
exactly one; longer runs are not modelled).  The companion
`header_pattern = rf'#\x7b1,3\x7d\s+.*?{task_id}.*?\n'` requires a literal
newline, and the scan tests it against `'\n'`-split lines, so it can never
match and is modelled as false. -/
def lineMatchesTag (line tid : String) : Bool :=
  containsCI line ("[task-id: " ++ tid ++ "]") ||
    containsCI line ("[task-id:" ++ tid ++ "]")

/-- `line.startswith('#')`. -/
def lineStartsHash (line : String) : Bool :=
  match line.toList with
  | '#' :: _ => true
  | _ => false

/-- `len(line.split(' ')[0])`: the length of the first space-separated
token (the code uses it as the heading level). -/
def headLevel (line : String) : Nat :=
  (line.toList.takeWhile (fun c => c ≠ ' ')).length

/-- `content.split('\n')`. -/
def splitNlAux : List Char → List Char → List String
  | [], acc => [String.mk acc.reverse]
  | c :: cs, acc =>
      if c = '\n' then String.mk acc.reverse :: splitNlAux cs []
      else splitNlAux cs (c :: acc)

/-- `content.split('\n')` over a whole string. -/
def splitNl (s : String) : List String := splitNlAux s.toList []

/-- The capture loop of `load_prd_content` (roadmap-modern.py:381-397),
including the `break` on a same-or-higher-level heading for a different
task. -/
def scanLines (tid : String) : List String → Bool → Nat → List String
  | [], _, _ => []
  | line :: rest, capturing, sectionLevel =>
      if lineMatchesTag line tid then
        let lvl := if lineStartsHash line then headLevel line else sectionLevel
        line :: scanLines tid rest true lvl
      else if capturing then
        if lineStartsHash line ∧ headLevel line ≤ sectionLevel ∧
            0 < sectionLevel ∧ ¬ (containsCI line tid = true) then
          []
        else line :: scanLines tid rest capturing sectionLevel
      else scanLines tid rest capturing sectionLevel

/-- `load_prd_content(url, task_id)`: resolve the path; a missing file
returns the string `PRD file not found: <resolved path>`; a read error
returns `Error reading PRD: <message>`; otherwise the captured block joined
with newlines, or `""` when nothing matched. -/
def loadPrdContent (fs : String → FileRes) (wsParent url tid : String) : String :=
  let prdPath := resolvePrd wsParent url
  match fs prdPath with
  | FileRes.missing => "PRD file not found: " ++ prdPath
  | FileRes.unreadable msg => "Error reading PRD: " ++ msg
  | FileRes.content text =>
      let captured := scanLines tid (splitNl text) false 0
      if captured = [] then "" else String.intercalate "\n" captured

/-- `'Technical PRD' in link['name'] or 'technical' in link['name'].lower()`
(roadmap-modern.py:420). -/
def isTechnicalName (name : String) : Bool :=
  containsSub ("Technical PRD".toList) name.toList ||
    containsSub ("technical".toList) (pyLower name).toList

/-- One iteration of the enrichment loop of `show_task_detail`
(roadmap-modern.py:419-428).  The guard compares the content against
`"PRD file not found: " ++ url` — the raw url — while `loadPrdContent`
embeds the resolved absolute path in its message; both sides are kept
exactly as the source has them.  Technical PRDs are inserted at the front
(`insert(0, ...)`), others appended. -/
def enrichStep (fs : String → FileRes) (wsParent tid : String)
    (acc : List (String × String)) (link : String × String) :
    List (String × String) :=
  let content := loadPrdContent fs wsParent link.2 tid
  if content ≠ "" ∧ content ≠ ("PRD file not found: " ++ link.2) then
    if isTechnicalName link.1 then (link.1, content) :: acc
    else acc ++ [(link.1, content)]
  else acc

/-- The `prd_contents` list accumulated over `task['links']`. -/
def prdContents (fs : String → FileRes) (wsParent : String)
    (links : List (String × String)) (tid : String) : List (String × String) :=
  links.foldl (enrichStep fs wsParent tid) []

/-- The enrichment sections actually printed by `show_task_detail`
(roadmap-modern.py:431-438): each accumulated entry with truthy (non-empty)
content. -/
def shownEnrichment (fs : String → FileRes) (wsParent : String)
    (links : List (String × String)) (tid : String) : List (String × String) :=
  (prdContents fs wsParent links tid).filter (fun p => p.2 ≠ "")

/-! ## Concrete fixtures used by witnesses and counterexamples -/

/-- The spec §8 scenario task `T1` (high priority, milestone M1, todo). -/
def exTaskA : ETask :=
  { dummyTask with
      id := "T1", title := "A", status := "todo", priority := "high",
      milestone := "M1" }

/-- The spec §8 scenario task `T2` (critical priority, milestone M1, done). -/
def exTaskB : ETask :=
  { dummyTask with
      id := "T2", title := "B", status := "done", priority := "critical",
      milestone := "M1" }

/-- A raw task whose `milestone` key is present with the empty string. -/
def exRawEmptyMilestone : RawTask := { rawBase "A" "a" with milestone := some "" }

/-- A raw task with no `milestone` key at all. -/
def exRawNoMilestone : RawTask := rawBase "B" "b"

/-- A raw task stored under an uppercase id. -/
def exRawUpper : RawTask := { rawBase "T1" "x" with status := some "todo" }

/-- A file system on which every path is missing. -/
def fsAllMissing : String → FileRes := fun _ => FileRes.missing

/-- A task in the valid enum state `blocked`, which is outside the
three-state space cycle. -/
def exTaskBlocked : ETask :=
  { dummyTask with
      id := "T9", title := "Blocked one", status := "blocked",
      priority := "low", milestone := "M2" }

/-! # Theorems -/

/-! ## Text wrapper lemmas -/

theorem joinSp_cons_cons (w v : List Char) (vs : List (List Char)) :
    joinSp (w :: v :: vs) = w ++ ' ' :: joinSp (v :: vs) := rfl

theorem joinSp_append_single {ws : List (List Char)} (w : List Char) (h : ws ≠ []) :
    joinSp (ws ++ [w]) = joinSp ws ++ ' ' :: w := by
  induction ws with
  | nil => exact absurd rfl h
  | cons v vs ih =>
    cases vs with
    | nil => rfl
    | cons u us =>
      have h2 : (u :: us : List (List Char)) ≠ [] := by simp
      calc joinSp ((v :: u :: us) ++ [w])
          = v ++ ' ' :: joinSp ((u :: us) ++ [w]) := rfl
        _ = v ++ ' ' :: (joinSp (u :: us) ++ ' ' :: w) := by rw [ih h2]
        _ = joinSp (v :: u :: us) ++ ' ' :: w := by
            rw [joinSp_cons_cons]; simp

theorem splitWsAux_wordish :
    ∀ (s acc : List Char), (∀ c ∈ acc, ¬ c.isWhitespace = true) →
      ∀ w ∈ splitWsAux s acc, Wordish w := by
  intro s
  induction s with
  | nil =>
    intro acc hacc w hw
    by_cases h0 : acc = []
    · simp [splitWsAux, h0] at hw
    · simp [splitWsAux, h0] at hw
      subst hw
      exact ⟨by simpa using h0, fun c hc => hacc c (List.mem_reverse.mp hc)⟩
  | cons c cs ih =>
    intro acc hacc w hw
    by_cases hcw : c.isWhitespace = true
    · by_cases h0 : acc = []
      · simp [splitWsAux, hcw, h0] at hw
        exact ih [] (by simp) w hw
      · simp [splitWsAux, hcw, h0] at hw
        rcases hw with hw | hw
        · subst hw
          exact ⟨by simpa using h0, fun x hx => hacc x (List.mem_reverse.mp hx)⟩
        · exact ih [] (by simp) w hw
    · simp [splitWsAux, hcw] at hw
      refine ih (c :: acc) ?_ w hw
      intro x hx
      rcases List.mem_cons.mp hx with hx | hx
      · subst hx; exact hcw
      · exact hacc x hx

theorem splitWs_wordish (s : List Char) : ∀ w ∈ splitWs s, Wordish w :=
  splitWsAux_wordish s [] (by simp)

theorem splitWsAux_word_step :
    ∀ (w : List Char), (∀ c ∈ w, ¬ c.isWhitespace = true) →
      ∀ (s acc : List Char), splitWsAux (w ++ s) acc = splitWsAux s (w.reverse ++ acc) := by
  intro w
  induction w with
  | nil => intro _ s acc; simp
  | cons c cw ih =>
    intro hnc s acc
    have hc : ¬ c.isWhitespace = true := hnc c (List.mem_cons_self c cw)
    have hcw : ∀ x ∈ cw, ¬ x.isWhitespace = true :=
      fun x hx => hnc x (List.mem_cons_of_mem c hx)
    calc splitWsAux ((c :: cw) ++ s) acc
        = splitWsAux (cw ++ s) (c :: acc) := by simp [splitWsAux, hc]
      _ = splitWsAux s (cw.reverse ++ (c :: acc)) := ih hcw s (c :: acc)
      _ = splitWsAux s ((c :: cw).reverse ++ acc) := by simp

theorem splitWs_joinSp :
    ∀ (lws : List (List Char)), (∀ w ∈ lws, Wordish w) →
      splitWs (joinSp lws) = lws := by
  intro lws
  induction lws with
  | nil => intro _; rfl
  | cons w ws ih =>
    intro h
    have hw : Wordish w := h w (List.mem_cons_self w ws)
    have hrev : w.reverse ≠ [] := by simpa using hw.1
    cases ws with
    | nil =>
      show splitWsAux w [] = [w]
      calc splitWsAux w []
          = splitWsAux (w ++ []) [] := by rw [List.append_nil]
        _ = splitWsAux [] (w.reverse ++ []) := splitWsAux_word_step w hw.2 [] []
        _ = [w] := by simp [splitWsAux, hrev]
    | cons v vs =>
      have hws : ∀ x ∈ v :: vs, Wordish x :=
        fun x hx => h x (List.mem_cons_of_mem w hx)
      calc splitWs (joinSp (w :: v :: vs))
          = splitWsAux (w ++ ' ' :: joinSp (v :: vs)) [] := rfl
        _ = splitWsAux (' ' :: joinSp (v :: vs)) (w.reverse ++ []) :=
            splitWsAux_word_step w hw.2 _ []
        _ = w.reverse.reverse :: splitWsAux (joinSp (v :: vs)) [] := by
            simp [splitWsAux, hrev]
        _ = w :: splitWs (joinSp (v :: vs)) := by simp [splitWs]
        _ = w :: v :: vs := by rw [ih hws]

theorem WrapInv.flush {width : Nat} {processed : List (List Char)}
    {st : List (List Char) × List (List Char) × Nat}
    (h : WrapInv width processed st) (hne : st.2.1 ≠ []) :
    ((st.1 ++ [joinSp st.2.1]).map splitWs).flatten = processed ∧
      WrapGood width processed (joinSp st.2.1) := by
  obtain ⟨h1, h2, _h3, h4, _h5⟩ := h
  have hcur : ∀ x ∈ st.2.1, Wordish x := by
    intro x hx
    exact h2 x (h1 ▸ List.mem_append_right _ hx)
  constructor
  · calc ((st.1 ++ [joinSp st.2.1]).map splitWs).flatten
        = (st.1.map splitWs).flatten ++ splitWs (joinSp st.2.1) := by simp
      _ = (st.1.map splitWs).flatten ++ st.2.1 := by rw [splitWs_joinSp _ hcur]
      _ = processed := h1
  · obtain ⟨hlen, hdisj⟩ := h4 hne
    rcases hdisj with hle | ⟨u, hu, hul, hugt⟩
    · exact Or.inl (le_trans hlen hle)
    · right
      have hju : joinSp st.2.1 = u := by rw [hu]; rfl
      rw [hju]
      have humem : u ∈ processed := by
        rw [← h1]
        exact List.mem_append_right _ (by rw [hu]; exact List.mem_cons_self u [])
      exact ⟨humem, hugt⟩

theorem wrapStep_inv {width : Nat} {processed : List (List Char)}
    {st : List (List Char) × List (List Char) × Nat} {w : List Char}
    (h : WrapInv width processed st) (hw : Wordish w) :
    WrapInv width (processed ++ [w]) (wrapStep width st w) := by
  obtain ⟨lines, cur, len⟩ := st
  obtain ⟨h1, h2, h3, h4, h5⟩ := h
  dsimp only at h1 h3 h4 h5
  have h2' : ∀ x ∈ processed ++ [w], Wordish x := by
    intro x hx
    rcases List.mem_append.mp hx with hx | hx
    · exact h2 x hx
    · simp at hx; subst hx; exact hw
  have h5' : ∀ line ∈ lines, WrapGood width (processed ++ [w]) line := by
    intro line hl
    rcases h5 line hl with hle | ⟨hm, hgt⟩
    · exact Or.inl hle
    · exact Or.inr ⟨List.mem_append_left _ hm, hgt⟩
  by_cases hc : len + w.length + 1 ≤ width
  · -- append to the current line
    simp only [wrapStep, if_pos hc]
    refine ⟨?_, h2', by simp, ?_, h5'⟩
    · simpa [← List.append_assoc] using congrArg (· ++ [w]) h1
    · intro _
      refine ⟨?_, Or.inl hc⟩
      by_cases h0 : cur = []
      · subst h0
        have : len = 0 := (h3 rfl).1
        simp [joinSp, this]
      · rw [joinSp_append_single w h0]
        have := (h4 h0).1
        simp only [List.length_append, List.length_cons]
        omega
  · by_cases h0 : cur = []
    · -- start the first line
      simp only [wrapStep, if_neg hc, if_pos h0]
      obtain ⟨hlen0, hlines0⟩ := h3 h0
      subst h0
      simp only [List.append_nil] at h1
      refine ⟨by simpa using congrArg (· ++ [w]) h1, h2', by simp, ?_, ?_⟩
      · intro _
        refine ⟨le_of_eq (by simp [joinSp]), ?_⟩
        rcases le_or_lt w.length width with hle | hgt
        · exact Or.inl hle
        · exact Or.inr ⟨w, rfl, rfl, hgt⟩
      · intro line hl
        rw [hlines0] at hl
        simp at hl
    · -- flush the current line, start a new one
      simp only [wrapStep, if_neg hc, if_neg h0]
      have hflush := @WrapInv.flush width processed (lines, cur, len) ⟨h1, h2, h3, h4, h5⟩ h0
      refine ⟨by simpa using congrArg (· ++ [w]) hflush.1, h2', by simp, ?_, ?_⟩
      · intro _
        refine ⟨le_of_eq (by simp [joinSp]), ?_⟩
        rcases le_or_lt w.length width with hle | hgt
        · exact Or.inl hle
        · exact Or.inr ⟨w, rfl, rfl, hgt⟩
      · intro line hl
        rcases List.mem_append.mp hl with hl | hl
        · exact h5' line hl
        · simp at hl
          subst hl
          rcases hflush.2 with hle | ⟨hm, hgt⟩
          · exact Or.inl hle
          · exact Or.inr ⟨List.mem_append_left _ hm, hgt⟩

theorem foldl_wrapStep_inv {width : Nat} :
    ∀ (ws : List (List Char)) {st : List (List Char) × List (List Char) × Nat}
      {processed : List (List Char)},
      WrapInv width processed st → (∀ w ∈ ws, Wordish w) →
      WrapInv width (processed ++ ws) (ws.foldl (wrapStep width) st) := by
  intro ws
  induction ws with
  | nil => intro st processed h _; simpa using h
  | cons w ws ih =>
    intro st processed h hws
    have hstep := wrapStep_inv h (hws w (List.mem_cons_self w ws))
    have := ih hstep (fun x hx => hws x (List.mem_cons_of_mem w hx))
    simpa [List.foldl_cons] using this

theorem wrapInv_init {width : Nat} : WrapInv width [] ([], [], 0) := by
  refine ⟨by simp, by simp, by simp, by simp, by simp⟩

theorem wrapWords_empty_case {width : Nat} {ws : List (List Char)}
    (h : (ws.foldl (wrapStep width) ([], [], 0)).2.1 = [])
    (h2 : (ws.foldl (wrapStep width) ([], [], 0)).1 = []) :
    wrapWords width ws = [[]] := by
  simp [wrapWords, h, h2]

theorem wrapWords_flush_case {width : Nat} {ws : List (List Char)}
    (h : (ws.foldl (wrapStep width) ([], [], 0)).2.1 ≠ []) :
    wrapWords width ws =
      (ws.foldl (wrapStep width) ([], [], 0)).1 ++
        [joinSp (ws.foldl (wrapStep width) ([], [], 0)).2.1] := by
  simp [wrapWords, h]

/-- C5: for every input string and positive width, every produced line fits
the width except that a single input word longer than the width stands
untruncated (and, being an input word, alone on its line); and splitting
the produced lines back into words recovers exactly the input's words in
order — so breaks happen only at whitespace and nothing is truncated. -/
theorem c5_wrap_width_order (text : List Char) (width : Nat) (hpos : 0 < width) :
    (∀ line ∈ wrapText text width,
        line.length ≤ width ∨ (line ∈ splitWs text ∧ width < line.length)) ∧
    ((wrapText text width).map splitWs).flatten = splitWs text := by
  have hws := splitWs_wordish text
  have hinv :=
    @foldl_wrapStep_inv width (splitWs text) ([], [], 0) [] (@wrapInv_init width) hws
  rw [List.nil_append] at hinv
  by_cases hcur : ((splitWs text).foldl (wrapStep width) ([], [], 0)).2.1 = []
  · obtain ⟨h1, _h2, h3, _h4, _h5⟩ := hinv
    obtain ⟨_hlen0, hlines0⟩ := h3 hcur
    have hproc : splitWs text = [] := by
      rw [← h1, hlines0, hcur]; rfl
    have hout : wrapText text width = [[]] := wrapWords_empty_case hcur hlines0
    rw [hout, hproc]
    constructor
    · intro line hl
      simp at hl
      subst hl
      exact Or.inl (Nat.zero_le width)
    · rfl
  · have hout : wrapText text width =
        ((splitWs text).foldl (wrapStep width) ([], [], 0)).1 ++
          [joinSp ((splitWs text).foldl (wrapStep width) ([], [], 0)).2.1] :=
      wrapWords_flush_case hcur
    have hflush := WrapInv.flush hinv hcur
    rw [hout]
    constructor
    · intro line hl
      rcases List.mem_append.mp hl with hl | hl
      · exact hinv.2.2.2.2 line hl
      · simp at hl
        subst hl
        exact hflush.2
    · exact hflush.1

/-- C5 witness: the theorem applied at the concrete text `aaa bb cc` and
width 5. -/
theorem c5_wrap_width_order_witness :
    (0 : Nat) < 5 ∧
      ((∀ line ∈ wrapText ("aaa bb cc".toList) 5,
          line.length ≤ 5 ∨ (line ∈ splitWs ("aaa bb cc".toList) ∧ 5 < line.length)) ∧
        ((wrapText ("aaa bb cc".toList) 5).map splitWs).flatten =
          splitWs ("aaa bb cc".toList)) :=
  ⟨by decide, c5_wrap_width_order ("aaa bb cc".toList) 5 (by decide)⟩

/-- C6 counterexample: wrapping `aaa bb cc` at width 5 yields the lines
`aaa` and `bb cc`, and re-wrapping those lines at width 5 yields
`aaa`, `bb`, `cc` — not the same lines.  (The loop's length counter charges
a separator even for a line's first word, so `bb cc`, of length exactly 5,
is rebuilt differently on a second pass.)  This refutes the claimed
idempotency. -/
theorem c6_wrap_not_idempotent_cex :
    wrapText ("aaa bb cc".toList) 5 = ["aaa".toList, "bb cc".toList] ∧
      ((wrapText ("aaa bb cc".toList) 5).map (fun l => wrapText l 5)).flatten ≠
        wrapText ("aaa bb cc".toList) 5 := by decide

/-- C6 amended: re-wrapping the wrapper's output may split lines further, so
wrapping is not idempotent in general; the part of the claim that holds is
the empty-input clause: empty input yields exactly one empty line, and that
output re-wraps to itself at every width. -/
theorem c6_wrap_empty_idempotent (width : Nat) :
    wrapText [] width = [[]] ∧
      ((wrapText [] width).map (fun l => wrapText l width)).flatten =
        wrapText [] width :=
  ⟨rfl, rfl⟩

/-! ## Filter/sort pipeline (C2) -/

theorem applyFilter_matches {f : Option String} (hf : f ≠ some "")
    (field : ETask → String) (ts : List ETask) :
    applyFilter f field ts = ts.filter (fun t => matchesFilter f (field t)) := by
  cases f with
  | none => simp [applyFilter, matchesFilter]
  | some s =>
    have hs : ¬ s = "" := fun h => hf (by rw [h])
    simp [applyFilter, hs, matchesFilter]

/-- C2 counterexample: with the milestone filter set to the exact-match
constraint `""`, the pipeline returns a task whose milestone is `"M1"`,
which does not satisfy the set predicate — Python truthiness makes an
empty-string constraint behave as "unset". -/
theorem c2_empty_filter_cex :
    getFilteredTasks [exTaskA] none none (some "") = [exTaskA] ∧
      exTaskA.milestone = "M1" ∧ ("M1" : String) ≠ "" := by decide

/-- C2 amended: for filters that are unset or a nonempty exact-match
constraint (the code treats an empty-string constraint as unset), the
pipeline returns exactly — as a multiset — the tasks satisfying every set
predicate, sorted ascending by the lexicographic triple (priority rank with
critical<high<medium<low and unknown ranks last, milestone, id);
the last conjunct spells that order out. -/
theorem c2_filter_sort_amended (tasks : List ETask) (fs fp fm : Option String)
    (hfs : fs ≠ some "") (hfp : fp ≠ some "") (hfm : fm ≠ some "") :
    List.Perm (getFilteredTasks tasks fs fp fm)
      (tasks.filter (fun t =>
        matchesFilter fs t.status && matchesFilter fp t.priority &&
          matchesFilter fm t.milestone)) ∧
    List.Sorted taskLE (getFilteredTasks tasks fs fp fm) ∧
    (∀ s t : ETask, taskLE s t ↔
      (priorityRank s.priority < priorityRank t.priority ∨
        (priorityRank s.priority = priorityRank t.priority ∧
          (s.milestone.toList < t.milestone.toList ∨
            (s.milestone.toList = t.milestone.toList ∧
              s.id.toList ≤ t.id.toList))))) := by
  have hre : getFilteredTasks tasks fs fp fm =
      List.insertionSort taskLE (tasks.filter (fun t =>
        matchesFilter fs t.status && matchesFilter fp t.priority &&
          matchesFilter fm t.milestone)) := by
    simp only [getFilteredTasks]
    rw [applyFilter_matches hfs, applyFilter_matches hfp, applyFilter_matches hfm]
    rw [List.filter_filter, List.filter_filter]
    congr 1
    refine List.filter_congr (fun t _ => ?_)
    cases matchesFilter fs t.status <;> cases matchesFilter fp t.priority <;>
      cases matchesFilter fm t.milestone <;> rfl
  refine ⟨?_, ?_, ?_⟩
  · rw [hre]; exact List.perm_insertionSort _ _
  · rw [hre]; exact List.sorted_insertionSort _ _
  · intro s t
    show taskKey s ≤ taskKey t ↔ _
    simp only [taskKey]
    rw [Prod.Lex.le_iff]
    constructor
    · rintro (h | ⟨he, h2⟩)
      · exact Or.inl h
      · refine Or.inr ⟨he, ?_⟩
        rcases (Prod.Lex.le_iff _ _).mp h2 with h3 | ⟨h3, h4⟩
        · exact Or.inl h3
        · exact Or.inr ⟨h3, h4⟩
    · rintro (h | ⟨he, h2⟩)
      · exact Or.inl h
      · refine Or.inr ⟨he, (Prod.Lex.le_iff _ _).mpr ?_⟩
        rcases h2 with h3 | ⟨h3, h4⟩
        · exact Or.inl h3
        · exact Or.inr ⟨h3, h4⟩

/-- C2 witness: the amended theorem at the spec §8 scenario — milestone
filter `M1` over `[T1 high, T2 critical]`. -/
theorem c2_filter_sort_amended_witness :
    ((none : Option String) ≠ some "") ∧ ((none : Option String) ≠ some "") ∧
      ((some "M1" : Option String) ≠ some "") ∧
      (List.Perm (getFilteredTasks [exTaskA, exTaskB] none none (some "M1"))
        ([exTaskA, exTaskB].filter (fun t =>
          matchesFilter none t.status && matchesFilter none t.priority &&
            matchesFilter (some "M1") t.milestone)) ∧
      List.Sorted taskLE (getFilteredTasks [exTaskA, exTaskB] none none (some "M1")) ∧
      (∀ s t : ETask, taskLE s t ↔
        (priorityRank s.priority < priorityRank t.priority ∨
          (priorityRank s.priority = priorityRank t.priority ∧
            (s.milestone.toList < t.milestone.toList ∨
              (s.milestone.toList = t.milestone.toList ∧
                s.id.toList ≤ t.id.toList)))))) :=
  ⟨by decide, by decide, by decide,
    c2_filter_sort_amended [exTaskA, exTaskB] none none (some "M1")
      (by decide) (by decide) (by decide)⟩

/-! ## Milestone grouping (C4) -/

theorem lookupGroup_addToGroups (gs : List (String × List (String × RawTask)))
    (key : String) (item : String × RawTask) (k : String) :
    lookupGroup (addToGroups gs key item) k =
      if k = key then lookupGroup gs k ++ [item] else lookupGroup gs k := by
  induction gs with
  | nil =>
    by_cases hk : k = key
    · simp [addToGroups, lookupGroup, hk]
    · have : ¬ key = k := fun h => hk h.symm
      simp [addToGroups, lookupGroup, hk, this]
  | cons hd rest ih =>
    obtain ⟨k0, b0⟩ := hd
    by_cases h0 : k0 = key
    · subst h0
      by_cases hk : k0 = k
      · subst hk
        simp [addToGroups, lookupGroup]
      · have : ¬ k = k0 := fun h => hk h.symm
        simp [addToGroups, lookupGroup, hk, this]
    · by_cases hk : k0 = k
      · subst hk
        have : ¬ k0 = key := h0
        simp [addToGroups, lookupGroup, this]
      · simp [addToGroups, lookupGroup, h0, hk, ih]

theorem lookupGroup_foldl :
    ∀ (tasks : List (String × RawTask)) (gs : List (String × List (String × RawTask)))
      (k : String),
      lookupGroup (tasks.foldl (fun gs x => addToGroups gs (milestoneOf x.2) x) gs) k =
        lookupGroup gs k ++ tasks.filter (fun x => milestoneOf x.2 == k) := by
  intro tasks
  induction tasks with
  | nil => intro gs k; simp
  | cons x xs ih =>
    intro gs k
    rw [List.foldl_cons, ih, lookupGroup_addToGroups]
    by_cases hk : k = milestoneOf x.2
    · have hx : (milestoneOf x.2 == k) = true := by simp [hk]
      simp [hk, List.filter_cons, hx]
    · have hx : (milestoneOf x.2 == k) = false := by simp; exact fun h => hk h.symm
      simp [hk, List.filter_cons, hx]

theorem lookupGroup_groupTasks (tasks : List (String × RawTask)) (k : String) :
    lookupGroup (groupTasks tasks) k =
      tasks.filter (fun x => milestoneOf x.2 == k) := by
  have := lookupGroup_foldl tasks [] k
  simpa [groupTasks, lookupGroup] using this

theorem mapFst_addToGroups (gs : List (String × List (String × RawTask)))
    (key : String) (item : String × RawTask) :
    (addToGroups gs key item).map Prod.fst =
      if key ∈ gs.map Prod.fst then gs.map Prod.fst
      else gs.map Prod.fst ++ [key] := by
  induction gs with
  | nil => simp [addToGroups]
  | cons hd rest ih =>
    obtain ⟨k0, b0⟩ := hd
    by_cases h0 : k0 = key
    · subst h0
      simp [addToGroups]
    · have hne : ¬ key = k0 := fun h => h0 h.symm
      by_cases hmem : key ∈ rest.map Prod.fst
      · simp [addToGroups, h0, ih, hmem, hne]
      · simp [addToGroups, h0, ih, hmem, hne]

theorem mem_mapFst_addToGroups (gs : List (String × List (String × RawTask)))
    (key : String) (item : String × RawTask) (k : String) :
    k ∈ (addToGroups gs key item).map Prod.fst ↔
      k ∈ gs.map Prod.fst ∨ k = key := by
  rw [mapFst_addToGroups]
  by_cases hmem : key ∈ gs.map Prod.fst
  · simp only [if_pos hmem]
    constructor
    · exact Or.inl
    · rintro (h | h)
      · exact h
      · subst h; exact hmem
  · simp [if_neg hmem]

theorem nodup_mapFst_addToGroups (gs : List (String × List (String × RawTask)))
    (key : String) (item : String × RawTask)
    (h : (gs.map Prod.fst).Nodup) :
    ((addToGroups gs key item).map Prod.fst).Nodup := by
  rw [mapFst_addToGroups]
  by_cases hmem : key ∈ gs.map Prod.fst
  · simpa [if_pos hmem] using h
  · rw [if_neg hmem]
    refine List.Nodup.append h (List.nodup_singleton key) ?_
    intro a ha hak
    rw [List.mem_singleton] at hak
    subst hak
    exact hmem ha

theorem mem_mapFst_foldl :
    ∀ (tasks : List (String × RawTask)) (gs : List (String × List (String × RawTask)))
      (k : String),
      k ∈ ((tasks.foldl (fun gs x => addToGroups gs (milestoneOf x.2) x) gs).map Prod.fst) ↔
        k ∈ gs.map Prod.fst ∨ ∃ x ∈ tasks, milestoneOf x.2 = k := by
  intro tasks
  induction tasks with
  | nil => intro gs k; simp
  | cons x xs ih =>
    intro gs k
    rw [List.foldl_cons, ih, mem_mapFst_addToGroups]
    constructor
    · rintro ((h | h) | ⟨y, hy, hyk⟩)
      · exact Or.inl h
      · exact Or.inr ⟨x, List.mem_cons_self x xs, h.symm⟩
      · exact Or.inr ⟨y, List.mem_cons_of_mem x hy, hyk⟩
    · rintro (h | ⟨y, hy, hyk⟩)
      · exact Or.inl (Or.inl h)
      · rcases List.mem_cons.mp hy with hy | hy
        · subst hy; exact Or.inl (Or.inr hyk.symm)
        · exact Or.inr ⟨y, hy, hyk⟩

theorem nodup_mapFst_foldl :
    ∀ (tasks : List (String × RawTask)) (gs : List (String × List (String × RawTask))),
      (gs.map Prod.fst).Nodup →
      (((tasks.foldl (fun gs x => addToGroups gs (milestoneOf x.2) x) gs)).map Prod.fst).Nodup := by
  intro tasks
  induction tasks with
  | nil => intro gs h; simpa using h
  | cons x xs ih =>
    intro gs h
    rw [List.foldl_cons]
    exact ih _ (nodup_mapFst_addToGroups gs (milestoneOf x.2) x h)

/-- C4 counterexample: a task whose `milestone` key holds the empty string
and a task with no `milestone` key land in two different buckets — `""` and
`"Unassigned"` — so tasks lacking a milestone are not gathered in one
distinct sentinel bucket. -/
theorem c4_two_unassigned_buckets_cex :
    listTasksByMilestone [("A", exRawEmptyMilestone), ("B", exRawNoMilestone)] =
      [("", [("A", exRawEmptyMilestone)]), ("Unassigned", [("B", exRawNoMilestone)])] ∧
    exRawEmptyMilestone.milestone = some "" ∧
    exRawNoMilestone.milestone = none ∧
    ("" : String) ≠ "Unassigned" := by decide

/-- C4 amended: buckets are presented in ascending (alphabetical) key order
without duplicates; each bucket holds exactly the tasks whose
`get('milestone', 'Unassigned')` equals its key — so only tasks with an
absent milestone fall into the `Unassigned` sentinel, while an
empty-string milestone forms its own `""` bucket — and is sorted by
(priority rank, id); every task appears in some bucket. -/
theorem c4_milestone_grouping_amended (tasks : List (String × RawTask)) :
    List.Sorted strLE ((listTasksByMilestone tasks).map Prod.fst) ∧
    ((listTasksByMilestone tasks).map Prod.fst).Nodup ∧
    (∀ p ∈ listTasksByMilestone tasks,
        List.Perm p.2 (tasks.filter (fun x => milestoneOf x.2 == p.1)) ∧
        List.Sorted bucketLE p.2) ∧
    (∀ x ∈ tasks, ∃ p ∈ listTasksByMilestone tasks, x ∈ p.2) := by
  have hfst : (listTasksByMilestone tasks).map Prod.fst =
      List.insertionSort strLE ((groupTasks tasks).map Prod.fst) := by
    simp only [listTasksByMilestone, List.map_map]
    have hcomp : (Prod.fst ∘ fun k =>
        (k, List.insertionSort bucketLE (lookupGroup (groupTasks tasks) k))) = id := by
      funext k; rfl
    rw [hcomp, List.map_id]
  refine ⟨?_, ?_, ?_, ?_⟩
  · rw [hfst]; exact List.sorted_insertionSort _ _
  · rw [hfst]
    exact ((List.perm_insertionSort strLE _).nodup_iff).mpr
      (nodup_mapFst_foldl tasks [] (by simp))
  · intro p hp
    simp only [listTasksByMilestone] at hp
    rcases List.mem_map.mp hp with ⟨k, _hk, hkp⟩
    subst hkp
    dsimp only
    constructor
    · rw [lookupGroup_groupTasks]
      exact List.perm_insertionSort _ _
    · exact List.sorted_insertionSort _ _
  · intro x hx
    refine ⟨(milestoneOf x.2,
      List.insertionSort bucketLE (lookupGroup (groupTasks tasks) (milestoneOf x.2))), ?_, ?_⟩
    · simp only [listTasksByMilestone]
      refine List.mem_map.mpr ⟨milestoneOf x.2, ?_, rfl⟩
      rw [List.mem_insertionSort]
      exact (mem_mapFst_foldl tasks [] (milestoneOf x.2)).mpr
        (Or.inr ⟨x, hx, rfl⟩)
    · rw [List.mem_insertionSort, lookupGroup_groupTasks]
      exact List.mem_filter.mpr ⟨hx, by simp⟩

/-! ## Panel-mode status cycling (C3, C10) -/

theorem nextStatus_todo : nextStatus "todo" = "in_progress" := by decide

theorem nextStatus_inprog : nextStatus "in_progress" = "done" := by decide

theorem nextStatus_done : nextStatus "done" = "todo" := by decide

theorem nextStatus_unknown {s : String}
    (h : s ∉ (["todo", "in_progress", "done"] : List String)) :
    nextStatus s = "in_progress" := by
  have hns : s ∉ statusCycle := by
    simp only [statusCycle, List.mem_cons, List.not_mem_nil, or_false]
    simp only [List.mem_cons, List.not_mem_nil, or_false] at h
    tauto
  have hidx : (if s ∈ statusCycle then statusCycle.indexOf s else 0) = 0 := if_neg hns
  simp only [nextStatus, hidx]
  rfl

theorem insertionSort_map_of_key_eq {g : ETask → ETask}
    (hg : ∀ t, taskKey (g t) = taskKey t) (l : List ETask) :
    List.insertionSort taskLE (l.map g) = (List.insertionSort taskLE l).map g :=
  (List.map_insertionSort taskLE taskLE g l (fun a _ b _ => by
      simp only [taskLE, hg])).symm

theorem getD_map_of_lt (g : ETask → ETask) :
    ∀ (l : List ETask) (i : Nat), i < l.length →
      ∀ d d' : ETask, (l.map g).getD i d = g (l.getD i d') := by
  intro l
  induction l with
  | nil => intro i h; simp at h
  | cons x xs ih =>
    intro i h d d'
    cases i with
    | zero => rfl
    | succ n =>
      have hn : n < xs.length := by simpa using h
      simpa using ih n hn d d'

/-- Effect of one space press (filters unset, selection in range): the
collection receives the by-id update, all view state is unchanged, the file
now holds the serialization of the updated collection, and the filtered
view is the pointwise image of the old one (the sort is untouched because
the update does not change any sort-key field). -/
theorem pressSpace_step (now : String) (st : PanelState)
    (hfs : st.fs = none) (hfp : st.fp = none) (hfm : st.fm = none)
    (hsel : st.selected < (filteredOf st).length) :
    (pressSpace now st).tasks = st.tasks.map (fun kv =>
        if kv.2.id = ((filteredOf st).getD st.selected dummyTask).id then
          (kv.1, { kv.2 with
            status := nextStatus ((filteredOf st).getD st.selected dummyTask).status,
            updated := now })
        else kv) ∧
    (pressSpace now st).selected = st.selected ∧
    (pressSpace now st).fs = none ∧ (pressSpace now st).fp = none ∧
    (pressSpace now st).fm = none ∧
    (pressSpace now st).file = some (dumpTasks (pressSpace now st).tasks) ∧
    filteredOf (pressSpace now st) = (filteredOf st).map (fun u =>
        if u.id = ((filteredOf st).getD st.selected dummyTask).id then
          { u with
            status := nextStatus ((filteredOf st).getD st.selected dummyTask).status,
            updated := now }
        else u) := by
  set tSel := (filteredOf st).getD st.selected dummyTask with htSel
  have hps : pressSpace now st =
      { st with
          tasks := st.tasks.map (fun kv =>
            if kv.2.id = tSel.id then
              (kv.1, { kv.2 with status := nextStatus tSel.status, updated := now })
            else kv),
          file := some (dumpTasks (st.tasks.map (fun kv =>
            if kv.2.id = tSel.id then
              (kv.1, { kv.2 with status := nextStatus tSel.status, updated := now })
            else kv))) } := by
    rw [htSel]
    simp only [pressSpace]
    rw [if_pos hsel]
  have hg : ∀ u : ETask,
      taskKey ((fun u : ETask =>
        if u.id = tSel.id then
          { u with status := nextStatus tSel.status, updated := now }
        else u) u) = taskKey u := by
    intro u
    dsimp only
    by_cases h : u.id = tSel.id
    · rw [if_pos h]
      rfl
    · rw [if_neg h]
  refine ⟨by rw [hps], by rw [hps], by rw [hps]; exact hfs, by rw [hps]; exact hfp,
    by rw [hps]; exact hfm, by rw [hps], ?_⟩
  have hsnd : (st.tasks.map (fun kv =>
      if kv.2.id = tSel.id then
        (kv.1, { kv.2 with status := nextStatus tSel.status, updated := now })
      else kv)).map Prod.snd =
      (st.tasks.map Prod.snd).map (fun u =>
        if u.id = tSel.id then
          { u with status := nextStatus tSel.status, updated := now }
        else u) := by
    rw [List.map_map, List.map_map]
    refine List.map_congr_left (fun kv _ => ?_)
    dsimp only [Function.comp]
    by_cases h : kv.2.id = tSel.id
    · simp only [if_pos h]
    · simp only [if_neg h]
  rw [hps]
  simp only [filteredOf]
  rw [hfs, hfp, hfm]
  simp only [getFilteredTasks, applyFilter]
  rw [hsnd, insertionSort_map_of_key_eq hg]

/-- After a press, the task at the (unchanged) selection index is exactly
the old selected task with the cycled status and the fresh timestamp. -/
theorem pressSpace_selTask (now : String) (st : PanelState)
    (hfs : st.fs = none) (hfp : st.fp = none) (hfm : st.fm = none)
    (hsel : st.selected < (filteredOf st).length) :
    (filteredOf (pressSpace now st)).getD (pressSpace now st).selected dummyTask =
      { (filteredOf st).getD st.selected dummyTask with
          status := nextStatus ((filteredOf st).getD st.selected dummyTask).status,
          updated := now } := by
  obtain ⟨_, hsel', _, _, _, _, hfilt⟩ := pressSpace_step now st hfs hfp hfm hsel
  rw [hsel', hfilt, getD_map_of_lt _ _ _ hsel dummyTask dummyTask]
  dsimp only
  rw [if_pos rfl]

/-- C3: in panel mode (filters are unset in every reachable panel state —
the only filter action clears them), pressing space on a selected `todo`
task sets it to `in_progress`, a second press to `done`, a third back to
`todo`; each press stamps the selected task's `updated` field with that
press's timestamp and leaves the file holding the serialization of the
current whole collection before the next key is read. -/
theorem c3_status_cycle_persist (tasks : List (String × ETask)) (sel : Nat)
    (f₀ : Option String) (n₁ n₂ n₃ : String)
    (hsel : (PanelState.mk tasks sel none none none f₀).selected <
      (filteredOf (PanelState.mk tasks sel none none none f₀)).length)
    (hstat : selStatus (PanelState.mk tasks sel none none none f₀) = "todo") :
    selStatus (pressSpace n₁ (PanelState.mk tasks sel none none none f₀)) =
      "in_progress" ∧
    selUpdated (pressSpace n₁ (PanelState.mk tasks sel none none none f₀)) = n₁ ∧
    (pressSpace n₁ (PanelState.mk tasks sel none none none f₀)).file =
      some (dumpTasks (pressSpace n₁ (PanelState.mk tasks sel none none none f₀)).tasks) ∧
    selStatus (pressSpace n₂ (pressSpace n₁
      (PanelState.mk tasks sel none none none f₀))) = "done" ∧
    selUpdated (pressSpace n₂ (pressSpace n₁
      (PanelState.mk tasks sel none none none f₀))) = n₂ ∧
    (pressSpace n₂ (pressSpace n₁ (PanelState.mk tasks sel none none none f₀))).file =
      some (dumpTasks (pressSpace n₂ (pressSpace n₁
        (PanelState.mk tasks sel none none none f₀))).tasks) ∧
    selStatus (pressSpace n₃ (pressSpace n₂ (pressSpace n₁
      (PanelState.mk tasks sel none none none f₀)))) = "todo" ∧
    selUpdated (pressSpace n₃ (pressSpace n₂ (pressSpace n₁
      (PanelState.mk tasks sel none none none f₀)))) = n₃ ∧
    (pressSpace n₃ (pressSpace n₂ (pressSpace n₁
      (PanelState.mk tasks sel none none none f₀)))).file =
      some (dumpTasks (pressSpace n₃ (pressSpace n₂ (pressSpace n₁
        (PanelState.mk tasks sel none none none f₀)))).tasks) := by
  set st₀ : PanelState := PanelState.mk tasks sel none none none f₀ with hst₀
  obtain ⟨_, h1sel, h1fs, h1fp, h1fm, h1file, h1filt⟩ :=
    pressSpace_step n₁ st₀ rfl rfl rfl hsel
  set st₁ := pressSpace n₁ st₀ with hst₁
  have hT₁ := pressSpace_selTask n₁ st₀ rfl rfl rfl hsel
  have hsel₁ : st₁.selected < (filteredOf st₁).length := by
    rw [h1sel, h1filt, List.length_map]
    exact hsel
  have hstat₁ : selStatus st₁ = "in_progress" := by
    show ((filteredOf st₁).getD st₁.selected dummyTask).status = _
    rw [hT₁]
    dsimp only
    rw [show ((filteredOf st₀).getD st₀.selected dummyTask).status = "todo" from hstat,
      nextStatus_todo]
  have hupd₁ : selUpdated st₁ = n₁ := by
    show ((filteredOf st₁).getD st₁.selected dummyTask).updated = _
    rw [hT₁]
  obtain ⟨_, h2sel, h2fs, h2fp, h2fm, h2file, h2filt⟩ :=
    pressSpace_step n₂ st₁ h1fs h1fp h1fm hsel₁
  set st₂ := pressSpace n₂ st₁ with hst₂
  have hT₂ := pressSpace_selTask n₂ st₁ h1fs h1fp h1fm hsel₁
  have hsel₂ : st₂.selected < (filteredOf st₂).length := by
    rw [h2sel, h2filt, List.length_map]
    exact hsel₁
  have hstat₂ : selStatus st₂ = "done" := by
    show ((filteredOf st₂).getD st₂.selected dummyTask).status = _
    rw [hT₂]
    dsimp only
    rw [show ((filteredOf st₁).getD st₁.selected dummyTask).status = "in_progress" from
      hstat₁, nextStatus_inprog]
  have hupd₂ : selUpdated st₂ = n₂ := by
    show ((filteredOf st₂).getD st₂.selected dummyTask).updated = _
    rw [hT₂]
  obtain ⟨_, _h3sel, _h3fs, _h3fp, _h3fm, h3file, _h3filt⟩ :=
    pressSpace_step n₃ st₂ h2fs h2fp h2fm hsel₂
  set st₃ := pressSpace n₃ st₂ with hst₃
  have hT₃ := pressSpace_selTask n₃ st₂ h2fs h2fp h2fm hsel₂
  have hstat₃ : selStatus st₃ = "todo" := by
    show ((filteredOf st₃).getD st₃.selected dummyTask).status = _
    rw [hT₃]
    dsimp only
    rw [show ((filteredOf st₂).getD st₂.selected dummyTask).status = "done" from
      hstat₂, nextStatus_done]
  have hupd₃ : selUpdated st₃ = n₃ := by
    show ((filteredOf st₃).getD st₃.selected dummyTask).updated = _
    rw [hT₃]
  exact ⟨hstat₁, hupd₁, h1file, hstat₂, hupd₂, h2file, hstat₃, hupd₃, h3file⟩

/-- C3 witness: the chain at a concrete one-task collection. -/
theorem c3_status_cycle_persist_witness :
    ((PanelState.mk [("T1", exTaskA)] 0 none none none none).selected <
        (filteredOf (PanelState.mk [("T1", exTaskA)] 0 none none none none)).length ∧
      selStatus (PanelState.mk [("T1", exTaskA)] 0 none none none none) = "todo") ∧
    (selStatus (pressSpace "t1" (PanelState.mk [("T1", exTaskA)] 0 none none none none)) =
        "in_progress" ∧
      selUpdated (pressSpace "t1"
        (PanelState.mk [("T1", exTaskA)] 0 none none none none)) = "t1" ∧
      (pressSpace "t1" (PanelState.mk [("T1", exTaskA)] 0 none none none none)).file =
        some (dumpTasks (pressSpace "t1"
          (PanelState.mk [("T1", exTaskA)] 0 none none none none)).tasks) ∧
      selStatus (pressSpace "t2" (pressSpace "t1"
        (PanelState.mk [("T1", exTaskA)] 0 none none none none))) = "done" ∧
      selUpdated (pressSpace "t2" (pressSpace "t1"
        (PanelState.mk [("T1", exTaskA)] 0 none none none none))) = "t2" ∧
      (pressSpace "t2" (pressSpace "t1"
        (PanelState.mk [("T1", exTaskA)] 0 none none none none))).file =
        some (dumpTasks (pressSpace "t2" (pressSpace "t1"
          (PanelState.mk [("T1", exTaskA)] 0 none none none none))).tasks) ∧
      selStatus (pressSpace "t3" (pressSpace "t2" (pressSpace "t1"
        (PanelState.mk [("T1", exTaskA)] 0 none none none none)))) = "todo" ∧
      selUpdated (pressSpace "t3" (pressSpace "t2" (pressSpace "t1"
        (PanelState.mk [("T1", exTaskA)] 0 none none none none)))) = "t3" ∧
      (pressSpace "t3" (pressSpace "t2" (pressSpace "t1"
        (PanelState.mk [("T1", exTaskA)] 0 none none none none)))).file =
        some (dumpTasks (pressSpace "t3" (pressSpace "t2" (pressSpace "t1"
          (PanelState.mk [("T1", exTaskA)] 0 none none none none)))).tasks)) :=
  ⟨⟨by decide, by decide⟩,
    c3_status_cycle_persist [("T1", exTaskA)] 0 none "t1" "t2" "t3"
      (by decide) (by decide)⟩

/-- C10: pressing space on a selected task whose status is outside the
cycle list (for example the valid enum value `blocked`) treats it as being
at the cycle start: the status becomes `in_progress`, the `updated`
timestamp is rewritten, and the collection is persisted. -/
theorem c10_unknown_status_cycles (tasks : List (String × ETask)) (sel : Nat)
    (f₀ : Option String) (n : String)
    (hsel : (PanelState.mk tasks sel none none none f₀).selected <
      (filteredOf (PanelState.mk tasks sel none none none f₀)).length)
    (hstat : selStatus (PanelState.mk tasks sel none none none f₀) ∉
      (["todo", "in_progress", "done"] : List String)) :
    selStatus (pressSpace n (PanelState.mk tasks sel none none none f₀)) =
      "in_progress" ∧
    selUpdated (pressSpace n (PanelState.mk tasks sel none none none f₀)) = n ∧
    (pressSpace n (PanelState.mk tasks sel none none none f₀)).file =
      some (dumpTasks (pressSpace n (PanelState.mk tasks sel none none none f₀)).tasks) := by
  set st₀ : PanelState := PanelState.mk tasks sel none none none f₀ with hst₀
  obtain ⟨_, _, _, _, _, h1file, _⟩ := pressSpace_step n st₀ rfl rfl rfl hsel
  have hT₁ := pressSpace_selTask n st₀ rfl rfl rfl hsel
  refine ⟨?_, ?_, h1file⟩
  · show ((filteredOf (pressSpace n st₀)).getD (pressSpace n st₀).selected
      dummyTask).status = _
    rw [hT₁]
    dsimp only
    exact nextStatus_unknown hstat
  · show ((filteredOf (pressSpace n st₀)).getD (pressSpace n st₀).selected
      dummyTask).updated = _
    rw [hT₁]

/-- C10 witness: a concrete `blocked` task cycles straight to
`in_progress`. -/
theorem c10_unknown_status_cycles_witness :
    ((PanelState.mk [("T9", exTaskBlocked)] 0 none none none none).selected <
        (filteredOf (PanelState.mk [("T9", exTaskBlocked)] 0 none none none none)).length ∧
      selStatus (PanelState.mk [("T9", exTaskBlocked)] 0 none none none none) ∉
        (["todo", "in_progress", "done"] : List String)) ∧
    (selStatus (pressSpace "t1"
        (PanelState.mk [("T9", exTaskBlocked)] 0 none none none none)) = "in_progress" ∧
      selUpdated (pressSpace "t1"
        (PanelState.mk [("T9", exTaskBlocked)] 0 none none none none)) = "t1" ∧
      (pressSpace "t1" (PanelState.mk [("T9", exTaskBlocked)] 0 none none none none)).file =
        some (dumpTasks (pressSpace "t1"
          (PanelState.mk [("T9", exTaskBlocked)] 0 none none none none)).tasks)) :=
  ⟨⟨by decide, by decide⟩,
    c10_unknown_status_cycles [("T9", exTaskBlocked)] 0 none "t1"
      (by decide) (by decide)⟩

/-! ## Task store (C9) -/

/-- C9: a missing tasks file loads as the empty mapping in both tools
(rather than raising), and saving the empty collection writes exactly the
two-character JSON object `\x7b\x7d`. -/
theorem c9_load_save_empty :
    loadTasks none = [] ∧ loadTasksModern none = [] ∧ dumpTasks [] = "\x7b\x7d" :=
  ⟨rfl, rfl, rfl⟩

/-! ## CLI task lookup (C7) -/

/-- C8 counterexample: the original claim fails twice.  The filter-by-status
dialog, given the out-of-range choice `9`, prints nothing beyond the header
and the menu — no inline report of the problem — and silently returns to
the main menu; and given the superscript digit `²`, which passes
`str.isdigit()` but is rejected by `int()`, the dialog raises an uncaught
`ValueError` that terminates the program. -/
theorem c8_filter_silent_cex :
    menuStep [("T1", exRawUpper)] "3" "9" =
      Except.ok ([Ev.header, Ev.menuBlock], true) ∧
    (∀ e ∈ [Ev.header, Ev.menuBlock], isErrorEv e = false) ∧
    ¬ (1 ≤ parseNat "9" ∧ parseNat "9" ≤ statusChoices.length) ∧
    menuStep [("T1", exRawUpper)] "3" "²" =
      Except.error "ValueError: invalid literal for int() with base 10: ²" := by decide

theorem pyIsDigit_of_parse {s : String} {n : Nat} (h : pyIntParse s = some n) :
    pyIsDigit s = true := by
  simp only [pyIntParse] at h
  by_cases hd : (s ≠ "" && s.toList.all Char.isDigit) = true
  · simp only [Bool.and_eq_true, decide_eq_true_eq, List.all_eq_true] at hd
    simp only [pyIsDigit, Bool.and_eq_true, decide_eq_true_eq, List.all_eq_true]
    refine ⟨hd.1, fun c hc => ?_⟩
    simp only [pyDigitChar, Bool.or_eq_true]
    exact Or.inl (Or.inl (Or.inl (hd.2 c hc)))
  · rw [if_neg hd] at h
    exact absurd h (by simp)

/-- C8 amended: an unknown task id and an invalid task-number selection are
reported inline and the menu loop continues.  An invalid status/priority
filter choice is never reported: when the choice fails `isdigit()` or
parses to a number outside the menu range, the dialog silently returns to
the main menu and the loop continues; but a choice whose characters pass
`isdigit()` without being decimal digits (such as `²`) makes `int()` raise
an uncaught `ValueError`, terminating the program.  The `AsciiStr` /
`ModelledStr` hypotheses confine the inputs to the character fragment on
which the embedding agrees with Python exactly. -/
theorem c8_invalid_input_amended (tasks : List (String × RawTask))
    (tid sel fc fx : String)
    (htid : AsciiStr tid)
    (hid : lookupRaw tasks (pyUpper tid) = none)
    (hsel : (taskMap tasks).lookup sel = none) (hsel2 : sel ≠ "")
    (hfcm : ModelledStr fc)
    (hfc : pyIsDigit fc = false ∨
      ∃ n, pyIntParse fc = some n ∧ ¬ (1 ≤ n ∧ n ≤ statusChoices.length) ∧
        ¬ (1 ≤ n ∧ n ≤ priorityChoices.length))
    (hfxm : ModelledStr fx)
    (hfx1 : pyIsDigit fx = true) (hfx2 : pyIntParse fx = none) :
    (∃ evs, menuStep tasks "2" tid = Except.ok (evs, true) ∧
      Ev.errorMsg ("Task " ++ pyUpper tid ++ " not found") ∈ evs) ∧
    (∃ evs, menuStep tasks "1" sel = Except.ok (evs, true) ∧
      Ev.errorMsg "Invalid selection" ∈ evs) ∧
    (menuStep tasks "3" fc = Except.ok ([Ev.header, Ev.menuBlock], true) ∧
      menuStep tasks "4" fc = Except.ok ([Ev.header, Ev.menuBlock], true) ∧
      (∀ e ∈ [Ev.header, Ev.menuBlock], isErrorEv e = false)) ∧
    (menuStep tasks "3" fx =
        Except.error ("ValueError: invalid literal for int() with base 10: " ++ fx) ∧
      menuStep tasks "4" fx =
        Except.error ("ValueError: invalid literal for int() with base 10: " ++ fx)) := by
  have hfbs : filterByStatus tasks fc = Except.ok [Ev.header, Ev.menuBlock] := by
    rcases hfc with h | ⟨n, hn, hout, _⟩
    · simp [filterByStatus, h]
    · simp [filterByStatus, pyIsDigit_of_parse hn, hn, hout]
  have hfbp : filterByPriority tasks fc = Except.ok [Ev.header, Ev.menuBlock] := by
    rcases hfc with h | ⟨n, hn, _, hout⟩
    · simp [filterByPriority, h]
    · simp [filterByPriority, pyIsDigit_of_parse hn, hn, hout]
  have hxbs : filterByStatus tasks fx =
      Except.error ("ValueError: invalid literal for int() with base 10: " ++ fx) := by
    simp [filterByStatus, hfx1, hfx2]
  have hxbp : filterByPriority tasks fx =
      Except.error ("ValueError: invalid literal for int() with base 10: " ++ fx) := by
    simp [filterByPriority, hfx1, hfx2]
  refine ⟨?_, ?_, ?_, ?_⟩
  · have hms : menuStep tasks "2" tid =
        Except.ok (showTaskDetailEvents tasks (pyUpper tid) ++ [Ev.promptEnter], true) := by
      simp only [menuStep]
      rw [if_neg (by decide : ¬ (("2" : String) = "1")), if_pos trivial]
    refine ⟨showTaskDetailEvents tasks (pyUpper tid) ++ [Ev.promptEnter], hms, ?_⟩
    simp only [showTaskDetailEvents, hid]
    exact List.mem_append_left _ (List.mem_singleton_self _)
  · have hms : menuStep tasks "1" sel =
        Except.ok ([Ev.header, Ev.listing] ++
          [Ev.errorMsg "Invalid selection", Ev.promptEnter], true) := by
      simp only [menuStep]
      rw [if_pos trivial]
      simp only [hsel]
      rw [if_neg hsel2]
    exact ⟨_, hms, List.mem_append_right _ (List.mem_cons_self _ _)⟩
  · have hms3 : menuStep tasks "3" fc =
        Except.ok ([Ev.header, Ev.menuBlock], true) := by
      simp only [menuStep]
      rw [if_neg (by decide : ¬ (("3" : String) = "1")),
        if_neg (by decide : ¬ (("3" : String) = "2")), if_pos trivial, hfbs]
    have hms4 : menuStep tasks "4" fc =
        Except.ok ([Ev.header, Ev.menuBlock], true) := by
      simp only [menuStep]
      rw [if_neg (by decide : ¬ (("4" : String) = "1")),
        if_neg (by decide : ¬ (("4" : String) = "2")),
        if_neg (by decide : ¬ (("4" : String) = "3")), if_pos trivial, hfbp]
    exact ⟨hms3, hms4, by decide⟩
  · constructor
    · simp only [menuStep]
      rw [if_neg (by decide : ¬ (("3" : String) = "1")),
        if_neg (by decide : ¬ (("3" : String) = "2")), if_pos trivial, hxbs]
    · simp only [menuStep]
      rw [if_neg (by decide : ¬ (("4" : String) = "1")),
        if_neg (by decide : ¬ (("4" : String) = "2")),
        if_neg (by decide : ¬ (("4" : String) = "3")), if_pos trivial, hxbp]

/-- C8 witness: the amended theorem at a concrete collection — unknown id
`zz` (uppercased to `ZZ`), selection `9` outside the one-entry numbered
listing, the out-of-range decimal filter choice `9`, and the crashing
superscript filter choice `²`. -/
theorem c8_invalid_input_amended_witness :
    (AsciiStr "zz" ∧ lookupRaw [("T1", exRawUpper)] (pyUpper "zz") = none ∧
      (taskMap [("T1", exRawUpper)]).lookup "9" = none ∧ ("9" : String) ≠ "" ∧
      ModelledStr "9" ∧ pyIntParse "9" = some 9 ∧
      ¬ (1 ≤ 9 ∧ 9 ≤ statusChoices.length) ∧
      ¬ (1 ≤ 9 ∧ 9 ≤ priorityChoices.length) ∧
      ModelledStr "²" ∧ pyIsDigit "²" = true ∧ pyIntParse "²" = none) ∧
    ((∃ evs, menuStep [("T1", exRawUpper)] "2" "zz" = Except.ok (evs, true) ∧
        Ev.errorMsg ("Task " ++ pyUpper "zz" ++ " not found") ∈ evs) ∧
      (∃ evs, menuStep [("T1", exRawUpper)] "1" "9" = Except.ok (evs, true) ∧
        Ev.errorMsg "Invalid selection" ∈ evs) ∧
      (menuStep [("T1", exRawUpper)] "3" "9" =
          Except.ok ([Ev.header, Ev.menuBlock], true) ∧
        menuStep [("T1", exRawUpper)] "4" "9" =
          Except.ok ([Ev.header, Ev.menuBlock], true) ∧
        (∀ e ∈ [Ev.header, Ev.menuBlock], isErrorEv e = false)) ∧
      (menuStep [("T1", exRawUpper)] "3" "²" =
          Except.error ("ValueError: invalid literal for int() with base 10: " ++ "²") ∧
        menuStep [("T1", exRawUpper)] "4" "²" =
          Except.error ("ValueError: invalid literal for int() with base 10: " ++ "²"))) :=
  ⟨⟨by decide, by decide, by decide, by decide, by decide, by decide, by decide,
      by decide, by decide, by decide, by decide⟩,
    c8_invalid_input_amended [("T1", exRawUpper)] "zz" "9" "9" "²"
      (by decide) (by decide) (by decide) (by decide) (by decide)
      (Or.inr ⟨9, by decide, by decide, by decide⟩)
      (by decide) (by decide) (by decide)⟩


/-! ## PRD enrichment (C1) -/

/-- C1, evaluated at the failing input: with the linked document
`../plans/x.md` missing, the detail view's enrichment content is the error
text `PRD file not found: /ws/plans/x.md`, which is then printed to the
user.  The guard in `show_task_detail` compares against the message built
from the raw url, while `load_prd_content` embeds the resolved path, so the
intended suppression never fires. -/
theorem c1_enrichment_error_shown :
    loadPrdContent fsAllMissing "/ws" "../plans/x.md" "T1" =
      "PRD file not found: /ws/plans/x.md" ∧
    shownEnrichment fsAllMissing "/ws" [("Technical PRD", "../plans/x.md")] "T1" =
      [("Technical PRD", "PRD file not found: /ws/plans/x.md")] := by decide

end Roadmap
